import Mathlib

/-!
# Verification of the esp32_school_bell_web authentication core

Shallow embedding of the token lifecycle and HTTP/session layer of the
repository (src/utils/TokenManager.js, src/utils/HttpClient.js,
src/utils/HttpRequestAgent.js, src/config/apiConfig.js,
src/utils/formValidation.js, src/features/Auth/AuthSlice.js,
src/middleware/authMiddleware.js), together with theorems settling the
frozen specification claims.

JavaScript values appearing in the embedded code are modelled by the
inductive type JValue below; JSON.parse is modelled by an executable
recursive-descent parser over lists of characters that follows the strict
JSON grammar (ECMA-404), which is what JSON.parse implements.  Numbers are
carried as exact rationals; IEEE-754 rounding of literals is not modelled
(no claim depends on it).
-/

/-- Model of a JavaScript value as far as the embedded code observes it.
jundefined models the JavaScript value undefined (e.g. a missing object
property); it is never produced by the JSON parser. -/
inductive JValue where
  | jundefined
  | jnull
  | jbool (b : Bool)
  | jnum (q : Rat)
  | jstr (s : String)
  | jarr (elems : List JValue)
  | jobj (fields : List (String × JValue))
deriving Inhabited

/-- JavaScript truthiness of a modelled value (the !x test in the source,
negated). -/
def truthy : JValue → Bool
  | .jundefined => false
  | .jnull => false
  | .jbool b => b
  | .jnum q => decide (q ≠ 0)
  | .jstr s => decide (s ≠ "")
  | .jarr _ => true
  | .jobj _ => true

/-- Whether the JavaScript typeof operator yields the string "object"
(true for null, arrays and plain objects). -/
def typeofObject : JValue → Bool
  | .jnull => true
  | .jarr _ => true
  | .jobj _ => true
  | _ => false

/-- Property access v[k] on a modelled value: last binding wins (as for a
JavaScript object built by JSON.parse with duplicate keys); absent
properties and access on non-objects yield undefined. -/
def jsGet (v : JValue) (k : String) : JValue :=
  match v with
  | .jobj fields => fields.foldl (fun acc kv => if kv.1 = k then kv.2 else acc) .jundefined
  | _ => .jundefined

/-! ## JSON.parse, modelled as a strict recursive-descent parser -/

/-- JSON insignificant whitespace. -/
def isJsonWs (c : Char) : Bool :=
  c = ' ' || c = '\t' || c = '\n' || c = '\r'

def skipWs : List Char → List Char
  | [] => []
  | c :: r => if isJsonWs c then skipWs r else c :: r

def digitVal? (c : Char) : Option Nat :=
  if '0' ≤ c ∧ c ≤ '9' then some (c.toNat - 48) else none

def hexVal? (c : Char) : Option Nat :=
  if '0' ≤ c ∧ c ≤ '9' then some (c.toNat - 48)
  else if 'a' ≤ c ∧ c ≤ 'f' then some (c.toNat - 87)
  else if 'A' ≤ c ∧ c ≤ 'F' then some (c.toNat - 55)
  else none

/-- Prepend a decoded character to a string-parse result. -/
def mapCons (d : Char) : Option (List Char × List Char) → Option (List Char × List Char)
  | some (cs, rest) => some (d :: cs, rest)
  | none => none

/-- Parse the body of a JSON string literal (the opening quote already
consumed), returning the decoded characters and the remaining input.
Unescaped control characters (below 0x20) are a strict-parse error. -/
def parseStrChars : List Char → Option (List Char × List Char)
  | [] => none
  | c :: r =>
    if c = '"' then some ([], r)
    else if c = '\\' then
      match r with
      | [] => none
      | e :: r2 =>
        if e = '"' ∨ e = '\\' ∨ e = '/' then mapCons e (parseStrChars r2)
        else if e = 'b' then mapCons (Char.ofNat 8) (parseStrChars r2)
        else if e = 'f' then mapCons (Char.ofNat 12) (parseStrChars r2)
        else if e = 'n' then mapCons (Char.ofNat 10) (parseStrChars r2)
        else if e = 'r' then mapCons (Char.ofNat 13) (parseStrChars r2)
        else if e = 't' then mapCons (Char.ofNat 9) (parseStrChars r2)
        else if e = 'u' then
          match r2 with
          | h1 :: h2 :: h3 :: h4 :: r3 =>
            match hexVal? h1, hexVal? h2, hexVal? h3, hexVal? h4 with
            | some v1, some v2, some v3, some v4 =>
              mapCons (Char.ofNat (((v1 * 16 + v2) * 16 + v3) * 16 + v4)) (parseStrChars r3)
            | _, _, _, _ => none
          | _ => none
        else none
    else if c.toNat < 32 then none
    else mapCons c (parseStrChars r)

/-- Greedily take decimal digits. -/
def takeDigits : List Char → List Nat × List Char
  | [] => ([], [])
  | c :: r =>
    match digitVal? c with
    | some d =>
      let p := takeDigits r
      (d :: p.1, p.2)
    | none => ([], c :: r)

def digitsToNat (ds : List Nat) : Nat :=
  ds.foldl (fun a d => 10 * a + d) 0

/-- Optional leading minus sign. -/
def parseSign : List Char → Bool × List Char
  | '-' :: r => (true, r)
  | l => (false, l)

/-- Integer part of a JSON number (strict grammar: a lone zero or a
nonzero leading digit followed by digits). -/
def parseIntPart : List Char → Option (Nat × List Char)
  | '0' :: r => some (0, r)
  | c :: r =>
    match digitVal? c with
    | some d => some (digitsToNat (d :: (takeDigits r).1), (takeDigits r).2)
    | none => none
  | [] => none

/-- Optional fraction part (a dot demands at least one digit). -/
def parseFracPart : List Char → Option (Rat × List Char)
  | '.' :: r =>
    if (takeDigits r).1.isEmpty then none
    else
      some ((digitsToNat (takeDigits r).1 : Rat) / ((10 : Rat) ^ (takeDigits r).1.length),
        (takeDigits r).2)
  | l => some (0, l)

/-- Exponent digits after e/E with optional sign. -/
def parseExpDigits (r : List Char) : Option (Int × List Char) :=
  let s : Int × List Char :=
    match r with
    | '+' :: r2 => (1, r2)
    | '-' :: r2 => (-1, r2)
    | _ => (1, r)
  if (takeDigits s.2).1.isEmpty then none
  else some (s.1 * (digitsToNat (takeDigits s.2).1 : Int), (takeDigits s.2).2)

/-- Optional exponent part. -/
def parseExpPart : List Char → Option (Int × List Char)
  | 'e' :: r => parseExpDigits r
  | 'E' :: r => parseExpDigits r
  | l => some (0, l)

/-- Parse a JSON number literal (strict grammar: no leading zeros, no
leading plus, mandatory digits around the dot). -/
def parseNum (l : List Char) : Option (Rat × List Char) :=
  let sg := parseSign l
  match parseIntPart sg.2 with
  | none => none
  | some (ival, l2) =>
    match parseFracPart l2 with
    | none => none
    | some (fval, l3) =>
      match parseExpPart l3 with
      | none => none
      | some (ev, l4) =>
        let base : Rat := (ival : Rat) + fval
        let scaled : Rat :=
          if ev ≥ 0 then base * (10 : Rat) ^ ev.toNat
          else base / (10 : Rat) ^ (-ev).toNat
        some (if sg.1 then -scaled else scaled, l4)

/-- Wrap a parsed string body as a JSON string value. -/
def mkStr : Option (List Char × List Char) → Option (JValue × List Char)
  | some (cs, rest) => some (.jstr (String.mk cs), rest)
  | none => none

/-- Wrap a parsed number as a JSON number value. -/
def mkNum : Option (Rat × List Char) → Option (JValue × List Char)
  | some (q, rest) => some (.jnum q, rest)
  | none => none

/-- An empty object or array closes immediately at its closing
delimiter; otherwise the member/element parse result is used. -/
def closeOrBody (close : Char) (emptyVal : JValue) (l2 : List Char)
    (body : Option (JValue × List Char)) : Option (JValue × List Char) :=
  match l2 with
  | c :: rest => if c = close then some (emptyVal, rest) else body
  | [] => body

/-- Parse a literal keyword (the first character already consumed). -/
def parseLit (lit : List Char) (out : JValue) (r : List Char) : Option (JValue × List Char) :=
  if lit.isPrefixOf r then some (out, r.drop lit.length) else none

/-- The three productions of the JSON grammar that recurse into each
other: a value, the member list of an object (wrapped as jobj), and the
element list of an array (wrapped as jarr).  A single fuel-indexed
function keeps the recursion structural so that concrete inputs evaluate
inside the kernel; jsonParse supplies more fuel than any input can
consume. -/
inductive ParseKind where
  | value
  | members
  | elems

def parseV : Nat → ParseKind → List Char → Option (JValue × List Char)
  | 0, _, _ => none
  | Nat.succ fuel, .value, l =>
    match skipWs l with
    | [] => none
    | c :: r =>
      if c = '"' then mkStr (parseStrChars r)
      else if c = '{' then
        closeOrBody '}' (.jobj []) (skipWs r) (parseV fuel .members (skipWs r))
      else if c = '[' then
        closeOrBody ']' (.jarr []) (skipWs r) (parseV fuel .elems (skipWs r))
      else if c = 't' then parseLit ['r', 'u', 'e'] (.jbool true) r
      else if c = 'f' then parseLit ['a', 'l', 's', 'e'] (.jbool false) r
      else if c = 'n' then parseLit ['u', 'l', 'l'] .jnull r
      else if c = '-' ∨ (digitVal? c).isSome then mkNum (parseNum (c :: r))
      else none
  | Nat.succ fuel, .members, l =>
    match skipWs l with
    | [] => none
    | c :: r =>
      if c = '"' then
        match parseStrChars r with
        | some (kcs, rest1) =>
          match skipWs rest1 with
          | [] => none
          | c2 :: rest2 =>
            if c2 = ':' then
              match parseV fuel .value rest2 with
              | some (v, rest3) =>
                match skipWs rest3 with
                | [] => none
                | c3 :: rest4 =>
                  if c3 = ',' then
                    match parseV fuel .members rest4 with
                    | some (.jobj fields, rest5) =>
                      some (.jobj ((String.mk kcs, v) :: fields), rest5)
                    | _ => none
                  else if c3 = '}' then some (.jobj [(String.mk kcs, v)], rest4)
                  else none
              | none => none
            else none
        | none => none
      else none
  | Nat.succ fuel, .elems, l =>
    match parseV fuel .value l with
    | some (v, rest) =>
      match skipWs rest with
      | [] => none
      | c :: rest2 =>
        if c = ',' then
          match parseV fuel .elems rest2 with
          | some (.jarr elems, rest3) => some (.jarr (v :: elems), rest3)
          | _ => none
        else if c = ']' then some (.jarr [v], rest2)
        else none
    | none => none

/-- Model of JSON.parse: parse a complete JSON text; trailing content
other than whitespace is an error. -/
def jsonParse (s : String) : Option JValue :=
  match parseV (s.length + 1) .value s.data with
  | some (v, rest) => if (skipWs rest).isEmpty then some v else none
  | none => none

/-! ## The JSON.stringify fragment used by the Token Store

storeToken serializes the object (token + timestamp built from
Date.now()).  Only string tokens reach the serializer (guarded in
storeToken), so quoting of strings and printing of natural numbers is all
that is needed. -/

def digitChar (n : Nat) : Char := Char.ofNat (48 + n)

/-- Lowercase hexadecimal digit, as produced by Number.prototype.toString(16). -/
def hexDigitChar (n : Nat) : Char :=
  if n < 10 then Char.ofNat (48 + n) else Char.ofNat (87 + n)

/-- JSON.stringify quoting of one character inside a string literal. -/
def escChar (c : Char) : List Char :=
  if c = '"' then ['\\', '"']
  else if c = '\\' then ['\\', '\\']
  else if c.toNat < 32 then
    if c.toNat = 8 then ['\\', 'b']
    else if c.toNat = 9 then ['\\', 't']
    else if c.toNat = 10 then ['\\', 'n']
    else if c.toNat = 12 then ['\\', 'f']
    else if c.toNat = 13 then ['\\', 'r']
    else ['\\', 'u', '0', '0', hexDigitChar (c.toNat / 16), hexDigitChar (c.toNat % 16)]
  else [c]

def escapeChars : List Char → List Char
  | [] => []
  | c :: r => escChar c ++ escapeChars r

/-- Decimal digits of a natural number (Number.prototype.toString for the
integers produced by Date.now()). -/
def natDecimalChars (n : Nat) : List Char :=
  if _h : n < 10 then [digitChar n]
  else natDecimalChars (n / 10) ++ [digitChar (n % 10)]
termination_by n
decreasing_by exact Nat.div_lt_self (by omega) (by omega)

def natDecimal (n : Nat) : String := String.mk (natDecimalChars n)

/-- JSON.stringify of the credential record written by storeToken, with
the source's insertion order: token first, then timestamp. -/
def recordChars (t : String) (now : Nat) : List Char :=
  ['{', '"', 't', 'o', 'k', 'e', 'n', '"', ':', '"'] ++ escapeChars t.data ++
    ['"', ',', '"', 't', 'i', 'm', 'e', 's', 't', 'a', 'm', 'p', '"', ':'] ++
    natDecimalChars now ++ ['}']

def stringifyRecord (t : String) (now : Nat) : String :=
  String.mk (recordChars t now)

/-! ## Token Store (src/utils/TokenManager.js)

The browser localStorage slot under the fixed key is modelled as an
optional string plus a flag saying whether writes succeed (setItem may
throw on quota/disabled storage; getItem and removeItem are modelled as
infallible).  Every operation returns its result together with the
storage state after the call, since reads self-heal corrupt data. -/

structure Storage where
  data : Option String
  writeOk : Bool

/-- clearStoredToken: remove the record; idempotent, never throws. -/
def clearStoredToken (st : Storage) : Bool × Storage :=
  (true, { st with data := none })

/-- storeToken: persist the record for a truthy string token, report
false (leaving the store unchanged) for any other argument or when the
underlying write fails.  The guard mirrors
!token || typeof token !== 'string' in the source. -/
def storeToken (v : JValue) (now : Nat) (st : Storage) : Bool × Storage :=
  match v with
  | .jstr t =>
    if t = "" then (false, st)
    else if st.writeOk then (true, { st with data := some (stringifyRecord t now) })
    else (false, st)
  | _ => (false, st)

/-- getTokenData: read and JSON-parse the stored payload; on a payload
that is falsy, unparsable, or whose parse is not a truthy object with a
truthy token property, return null (clearing the slot except in the
falsy-payload case, which returns before any parse is attempted). -/
def getTokenData (st : Storage) : Option JValue × Storage :=
  match st.data with
  | none => (none, st)
  | some p =>
    if p = "" then (none, st)
    else
      match jsonParse p with
      | none => (none, (clearStoredToken st).2)
      | some v =>
        if truthy v && typeofObject v && truthy (jsGet v "token") then (some v, st)
        else (none, (clearStoredToken st).2)

/-- getStoredToken: same validation as getTokenData but returns only the
token property. -/
def getStoredToken (st : Storage) : Option JValue × Storage :=
  match st.data with
  | none => (none, st)
  | some p =>
    if p = "" then (none, st)
    else
      match jsonParse p with
      | none => (none, (clearStoredToken st).2)
      | some v =>
        if truthy v && typeofObject v && truthy (jsGet v "token") then (some (jsGet v "token"), st)
        else (none, (clearStoredToken st).2)

/-- hasStoredToken: !!getStoredToken(). -/
def hasStoredToken (st : Storage) : Bool × Storage :=
  let p := getStoredToken st
  (p.1.isSome, p.2)

/-- Date.now() - tokenData.timestamp.  The outer Option is the null
result (no usable record or falsy timestamp); the inner Option is NaN
(numeric coercion of a truthy non-numeric timestamp is modelled as NaN;
storeToken only ever writes numbers, and no claim depends on coercion of
hand-corrupted timestamps). -/
def ageSub (now : Rat) : JValue → Option Rat
  | .jnum q => some (now - q)
  | .jbool true => some (now - 1)
  | _ => none

/-- getTokenAge: null without a record or a truthy timestamp, otherwise
the (possibly NaN) difference from the current clock. -/
def getTokenAge (now : Rat) (st : Storage) : Option (Option Rat) × Storage :=
  let p := getTokenData st
  match p.1 with
  | none => (none, p.2)
  | some v =>
    if truthy (jsGet v "timestamp") then (some (ageSub now (jsGet v "timestamp")), p.2)
    else (none, p.2)

/-- isTokenExpired: age !== null && age > maxAge (a NaN comparison is
false). -/
def isTokenExpired (now maxAge : Rat) (st : Storage) : Bool × Storage :=
  let p := getTokenAge now st
  match p.1 with
  | none => (false, p.2)
  | some none => (false, p.2)
  | some (some age) => (decide (age > maxAge), p.2)

/-! ## API configuration (src/config/apiConfig.js) -/

def LOGIN_ENDPOINT : String := "/api/login"
def LOGOUT_ENDPOINT : String := "/api/logout"
def VALIDATE_TOKEN_ENDPOINT : String := "/api/validate-token"

def PUBLIC_ENDPOINTS : List String := ["/api/login", "/api/health", "/api/status"]

/-- JavaScript String.prototype.includes restricted to lists of
characters. -/
def listIncludes (sub : List Char) : List Char → Bool
  | [] => sub.isPrefixOf []
  | c :: r => sub.isPrefixOf (c :: r) || listIncludes sub r

def strIncludes (s sub : String) : Bool := listIncludes sub.data s.data

/-- JavaScript String.prototype.startsWith. -/
def strStartsWith (s p : String) : Bool := p.data.isPrefixOf s.data

/-- isPublicEndpoint: PUBLIC_ENDPOINTS.some(p => endpoint.includes(p)). -/
def isPublicEndpoint (endpoint : String) : Bool :=
  PUBLIC_ENDPOINTS.any (fun pub => strIncludes endpoint pub)

/-- getErrorMessage(status, defaultMessage); the second argument is none
when the caller passed undefined, in which case the source's default
parameter value applies. -/
def getErrorMessage (status : Nat) (dflt : Option String) : String :=
  if status = 400 then "Invalid request data"
  else if status = 401 then "Invalid username or password"
  else if status = 403 then "Access denied"
  else if status = 404 then "Requested resource not found"
  else if status = 409 then "Request conflicts with current state"
  else if status = 429 then "Too many requests - please wait before trying again"
  else if status = 500 then "ESP32 server error - please try again"
  else if status = 503 then "Service temporarily unavailable"
  else dflt.getD "Request failed"

/-! ## Request Gateway (src/utils/HttpClient.js) -/

/-- isLoginRequest: url.includes(API_CONFIG.ENDPOINTS.LOGIN). -/
def isLoginRequest (url : String) : Bool := strIncludes url LOGIN_ENDPOINT

/-- requiresAuth: url.startsWith('/api/') && !isPublicEndpoint(url). -/
def requiresAuth (url : String) : Bool :=
  strStartsWith url "/api/" && !isPublicEndpoint url

/-- The network's answer to one fetch: status plus the headers and body
text the embedded code inspects. -/
structure Resp where
  status : Nat
  contentType : Option String
  contentLength : Option String
  body : String

/-- Failures thrown by HttpClient.request, by error message in the
source: authRequired is 'Authentication required but no token available',
authRejected is 'Authentication failed: <status>', networkFail is a
transport-level rejection of fetch itself. -/
inductive HttpFailure where
  | authRequired
  | authRejected (status : Nat)
  | networkFail

/-- Observable outcome of HttpClient.request: which fetches were
transmitted, which auth-error events were broadcast on window, the
returned response or thrown failure, and the storage afterwards. -/
structure ReqOut where
  calls : List String
  events : List Nat
  result : Except HttpFailure Resp
  store : Storage

/-- HttpClient.request.  The environment argument is the network's
behavior for the fetch: none models a transport failure, some r the
response.  Token injection is skipped for skipAuth and for login URLs;
a protected URL with no stored token is blocked before any fetch; a 401
or 403 response synchronously clears the Token Store, broadcasts an
auth-error event and throws. -/
def request (url : String) (skipAuth : Bool) (env : Option Resp) (st : Storage) : ReqOut :=
  let lookup := !skipAuth && !isLoginRequest url
  let p := if lookup then getStoredToken st else (none, st)
  if lookup && p.1.isNone && requiresAuth url then
    { calls := [], events := [], result := .error .authRequired, store := p.2 }
  else
    match env with
    | none => { calls := [url], events := [], result := .error .networkFail, store := p.2 }
    | some resp =>
      if resp.status = 401 ∨ resp.status = 403 then
        { calls := [url], events := [resp.status],
          result := .error (.authRejected resp.status), store := (clearStoredToken p.2).2 }
      else
        { calls := [url], events := [], result := .ok resp, store := p.2 }

/-! ## Response-body parsing (HttpRequestAgent._parseResponseBody) -/

inductive BodyFailure where
  | wrongContentType (ct : String)
  | malformedJson

/-- Result of body parsing plus what was written to the error log (the
diagnostic excerpt of the offending text). -/
structure BodyOut where
  result : Except BodyFailure JValue
  logs : List String

/-- text.substring(0, n). -/
def strTake (s : String) (n : Nat) : String := String.mk (s.data.take n)

/-- _cleanJsonString: escape every raw control character (0x00-0x1F)
anywhere in the text as \u00xx. -/
def cleanJsonString (s : String) : String :=
  String.mk (s.data.flatMap (fun c =>
    if c.toNat ≤ 31 then ['\\', 'u', '0', '0', hexDigitChar (c.toNat / 16), hexDigitChar (c.toNat % 16)]
    else [c]))

/-- The JSON-parsing part of _parseResponseBody: strict parse, then one
recovery pass over the control-character-escaped text when that changed
anything, then a malformed-JSON error carrying a 200-character diagnostic
excerpt to the log. -/
def parseBodyText (text : String) : BodyOut :=
  if text = "" then { result := .ok (.jobj []), logs := [] }
  else
    match jsonParse text with
    | some v => { result := .ok v, logs := [] }
    | none =>
      let cleaned := cleanJsonString text
      if cleaned ≠ text then
        match jsonParse cleaned with
        | some v => { result := .ok v, logs := [] }
        | none => { result := .error .malformedJson, logs := [strTake text 200] }
      else { result := .error .malformedJson, logs := [strTake text 200] }

/-- _parseResponseBody: 204/Content-Length 0 resolve to an empty object;
a declared non-JSON content type is rejected; otherwise the body text is
parsed with one recovery pass. -/
def parseResponseBody (r : Resp) : BodyOut :=
  if r.status = 204 ∨ r.contentLength = some "0" then { result := .ok (.jobj []), logs := [] }
  else
    match r.contentType with
    | some ct =>
      if !strIncludes ct "application/json" then
        { result := .error (.wrongContentType ct), logs := [] }
      else parseBodyText r.body
    | none => parseBodyText r.body

/-! ## HTTP Request Agent (src/utils/HttpRequestAgent.js)

The thrown JavaScript errors are modelled by their user-facing message
strings, which is what the Redux layer stores.  Non-string message
properties on error bodies are not modelled (they would only change the
text of the message, which no claim inspects). -/

/-- Outcome of HttpRequestAgent.login. -/
structure LoginOut where
  calls : List String
  events : List Nat
  result : Except String JValue
  store : Storage

/-- The message property of a parsed error body, as handed to
getErrorMessage (undefined selects the default parameter). -/
def messageOf (v : JValue) : Option String :=
  match jsGet v "message" with
  | .jstr m => some m
  | _ => none

/-- HttpRequestAgent.login: POST the credentials to the login endpoint
with skipAuth, require a 2xx JSON body containing a truthy token, store
the token; clear the stored credential on every failure path.  The
credentials are posted as given - no local validation happens here. -/
def loginAgent (creds : JValue) (now : Nat) (env : Option Resp) (st : Storage) : LoginOut :=
  let o := request LOGIN_ENDPOINT true env st
  let _ := creds
  match o.result with
  | .error .authRequired =>
    { calls := o.calls, events := o.events,
      result := .error "Authentication required but no token available",
      store := (clearStoredToken o.store).2 }
  | .error (.authRejected s) =>
    { calls := o.calls, events := o.events,
      result := .error ("Authentication failed: " ++ natDecimal s),
      store := (clearStoredToken o.store).2 }
  | .error .networkFail =>
    { calls := o.calls, events := o.events,
      result := .error "Unable to connect to ESP32 device",
      store := (clearStoredToken o.store).2 }
  | .ok resp =>
    if 200 ≤ resp.status ∧ resp.status ≤ 299 then
      match (parseResponseBody resp).result with
      | .error (.wrongContentType ct) =>
        { calls := o.calls, events := o.events,
          result := .error ("Unexpected content-type: " ++ ct ++ ". Expected application/json"),
          store := (clearStoredToken o.store).2 }
      | .error .malformedJson =>
        { calls := o.calls, events := o.events,
          result := .error "Invalid JSON response",
          store := (clearStoredToken o.store).2 }
      | .ok data =>
        if truthy (jsGet data "token") then
          let w := storeToken (jsGet data "token") now o.store
          if w.1 then
            { calls := o.calls, events := o.events, result := .ok data, store := w.2 }
          else
            { calls := o.calls, events := o.events,
              result := .error "Failed to store authentication token",
              store := (clearStoredToken w.2).2 }
        else
          { calls := o.calls, events := o.events,
            result := .error "Invalid server response: missing authentication token",
            store := (clearStoredToken o.store).2 }
    else
      let errBody : JValue :=
        match (parseResponseBody resp).result with
        | .ok v => v
        | .error _ => .jobj []
      { calls := o.calls, events := o.events,
        result := .error (getErrorMessage resp.status (messageOf errBody)),
        store := (clearStoredToken o.store).2 }

/-- HttpRequestAgent.logout: best-effort server notification whose
failure is swallowed; the local credential is cleared unconditionally in
the finally block.  Returns the storage afterwards plus the observable
calls/events. -/
def logoutAgent (env : Option Resp) (st : Storage) : Storage × List String × List Nat :=
  let p := getStoredToken st
  match p.1 with
  | none => ((clearStoredToken p.2).2, [], [])
  | some _ =>
    let o := request LOGOUT_ENDPOINT false env p.2
    ((clearStoredToken o.store).2, o.calls, o.events)

/-- HttpRequestAgent.validateToken: short-circuit to invalid without a
stored token; otherwise GET the validation endpoint and clear the
credential on any failure.  Never throws; reports validity plus the
user profile. -/
def validateTokenAgent (env : Option Resp) (st : Storage) :
    (Bool × JValue) × Storage × List String × List Nat :=
  let p := getStoredToken st
  match p.1 with
  | none => ((false, .jundefined), p.2, [], [])
  | some _ =>
    let o := request VALIDATE_TOKEN_ENDPOINT false env p.2
    match o.result with
    | .error _ => ((false, .jundefined), (clearStoredToken o.store).2, o.calls, o.events)
    | .ok resp =>
      if 200 ≤ resp.status ∧ resp.status ≤ 299 then
        match (parseResponseBody resp).result with
        | .ok data => ((true, jsGet data "user"), o.store, o.calls, o.events)
        | .error _ => ((false, .jundefined), (clearStoredToken o.store).2, o.calls, o.events)
      else ((false, .jundefined), (clearStoredToken o.store).2, o.calls, o.events)

/-! ## Form validation (src/utils/formValidation.js) -/

/-- JavaScript String.prototype.trim (the whitespace class also contains
less common members not representable here; the usual ASCII ones
suffice for the embedded validation rules). -/
def isTrimWs (c : Char) : Bool :=
  c = ' ' || c = '\t' || c = '\n' || c = '\r' || c = '\x0b' || c = '\x0c'

def jsTrim (s : String) : String :=
  String.mk (((s.data.dropWhile isTrimWs).reverse.dropWhile isTrimWs).reverse)

def usernamePatternChar (c : Char) : Bool :=
  ('a' ≤ c && c ≤ 'z') || ('A' ≤ c && c ≤ 'Z') || ('0' ≤ c && c ≤ '9') ||
    c = '_' || c = '.' || c = '-'

structure FieldRules where
  minLength : Nat
  maxLength : Nat
  hasPattern : Bool

def usernameRules : FieldRules := { minLength := 1, maxLength := 100, hasPattern := true }
def passwordRules : FieldRules := { minLength := 1, maxLength := 200, hasPattern := false }

/-- validateField for the two credential fields: required check on the
raw value, then length and pattern checks on the trimmed value.  Only
validity is modelled, not the error-message strings. -/
def validateField (rules : FieldRules) (value : String) : Bool :=
  if jsTrim value = "" then false
  else
    let t := jsTrim value
    decide (rules.minLength ≤ t.length) && decide (t.length ≤ rules.maxLength) &&
      (!rules.hasPattern || t.data.all usernamePatternChar)

/-- validateLoginCredentials: both fields must pass their rules.  This
function exists in the repository but is called from nowhere. -/
def validateLoginCredentials (username password : String) : Bool :=
  validateField usernameRules username && validateField passwordRules password

/-! ## Auth slice and middleware (src/features/Auth/AuthSlice.js,
src/middleware/authMiddleware.js)

The Redux auth state; user and token are JValues with jnull for the
JavaScript null the reducers assign. -/

structure AuthState where
  token : JValue
  isAuthenticated : Bool
  isLoading : Bool
  isInitializing : Bool
  error : Option String
  user : JValue

def initialState : AuthState :=
  { token := .jnull, isAuthenticated := false, isLoading := false,
    isInitializing := true, error := none, user := .jnull }

/-- Reducer clearAuthToken: clear the state fields and the stored
credential in the same synchronous step. -/
def clearAuthToken (a : AuthState) (st : Storage) : AuthState × Storage :=
  ({ a with token := .jnull, isAuthenticated := false, user := .jnull },
    (clearStoredToken st).2)

/-- Reducer clearAuthError. -/
def clearAuthError (a : AuthState) : AuthState := { a with error := none }

/-- The authMiddleware window listener for auth-error events: dispatch
clearAuthToken on 401/403. -/
def handleAuthErrorEvent (status : Nat) (a : AuthState) (st : Storage) : AuthState × Storage :=
  if status = 401 ∨ status = 403 then clearAuthToken a st else (a, st)

/-- action.payload.user || null. -/
def orNull (v : JValue) : JValue := if truthy v then v else .jnull

/-- loginUser.pending. -/
def loginPendingR (a : AuthState) : AuthState := { a with isLoading := true, error := none }

/-- loginUser.fulfilled / loginUser.rejected applied to the thunk's
outcome. -/
def applyLoginResult (a : AuthState) (res : Except String JValue) : AuthState :=
  match res with
  | .ok data =>
    { a with
        isLoading := false
        token := jsGet data "token"
        isAuthenticated := true
        user := orNull (jsGet data "user")
        error := none }
  | .error m =>
    { a with
        isLoading := false
        token := .jnull
        isAuthenticated := false
        user := .jnull
        error := some m }

/-- logoutUser.pending. -/
def logoutPendingR (a : AuthState) : AuthState := { a with isLoading := true, error := none }

/-- logoutUser.fulfilled (the thunk never rejects: the agent swallows
server errors). -/
def applyLogout (a : AuthState) : AuthState :=
  { a with
      isLoading := false
      token := .jnull
      isAuthenticated := false
      user := .jnull
      error := none }

/-- initializeAuth.pending. -/
def initPendingR (a : AuthState) : AuthState := { a with isInitializing := true, error := none }

/-- The initializeAuth thunk: validate, then re-read the stored token for
the payload when valid. -/
def initThunk (env : Option Resp) (st : Storage) : (JValue × JValue) × Storage :=
  let r := validateTokenAgent env st
  if r.1.1 then
    let p := getStoredToken r.2.1
    ((match p.1 with | some v => v | none => .jnull, r.1.2), p.2)
  else ((.jnull, .jnull), r.2.1)

/-- initializeAuth.fulfilled. -/
def applyInitResult (a : AuthState) (tok user : JValue) : AuthState :=
  { a with
      isInitializing := false
      token := tok
      isAuthenticated := truthy tok
      user := user
      error := none }

/-! ## The reachable states of the auth state machine

One step is one synchronously-observable batch: a dispatched reducer, or
a settled thunk together with the storage effects its agent call
performed (the runtime is single-threaded, and the auth-error event
dispatch plus its middleware reaction run synchronously inside the
request classification). -/

/-- Application of whatever auth-error events a gateway call broadcast
(at most one per call, and only for 401/403). -/
def stepApi (url : String) (skipAuth : Bool) (env : Option Resp)
    (a : AuthState) (st : Storage) : AuthState × Storage :=
  let o := request url skipAuth env st
  match o.events with
  | [] => (a, o.store)
  | s :: _ => handleAuthErrorEvent s a o.store

/-- One transition of the composed system (Redux auth state plus the
persisted Token Store). -/
inductive Step : AuthState × Storage → AuthState × Storage → Prop where
  | loginPending (a : AuthState) (st : Storage) : Step (a, st) (loginPendingR a, st)
  | loginSettle (a : AuthState) (st : Storage) (creds : JValue) (now : Nat) (env : Option Resp) :
      Step (a, st)
        (applyLoginResult a (loginAgent creds now env st).result, (loginAgent creds now env st).store)
  | logoutPending (a : AuthState) (st : Storage) : Step (a, st) (logoutPendingR a, st)
  | logoutSettle (a : AuthState) (st : Storage) (env : Option Resp) :
      Step (a, st) (applyLogout a, (logoutAgent env st).1)
  | initPending (a : AuthState) (st : Storage) : Step (a, st) (initPendingR a, st)
  | initSettle (a : AuthState) (st : Storage) (env : Option Resp) :
      Step (a, st)
        (applyInitResult a (initThunk env st).1.1 (initThunk env st).1.2, (initThunk env st).2)
  | ackError (a : AuthState) (st : Storage) : Step (a, st) (clearAuthError a, st)
  | externalInvalidation (a : AuthState) (st : Storage) (status : Nat) :
      Step (a, st) (handleAuthErrorEvent status a st)
  | apiCall (a : AuthState) (st : Storage) (url : String) (skipAuth : Bool) (env : Option Resp) :
      Step (a, st) (stepApi url skipAuth env a st)
  | expiryCheck (a : AuthState) (st : Storage) (now maxAge : Rat) :
      Step (a, st)
        (if (isTokenExpired now maxAge st).1 then clearAuthToken a (isTokenExpired now maxAge st).2
         else (a, (isTokenExpired now maxAge st).2))

/-- Reachability: the process starts in the initial Redux state with
whatever the persisted storage holds from earlier sessions. -/
inductive Reachable : AuthState × Storage → Prop where
  | boot (st : Storage) : Reachable (initialState, st)
  | step {s s2 : AuthState × Storage} : Reachable s → Step s s2 → Reachable s2

/-- A credential record is present exactly when getStoredToken reports
one (the Token Store's exists()). -/
def recordPresent (st : Storage) : Bool := (hasStoredToken st).1

/-- The digit values of the decimal expansion of a natural number,
most significant first (the digits String(n) prints). -/
def decDigitVals (n : Nat) : List Nat :=
  if _h : n < 10 then [n] else decDigitVals (n / 10) ++ [n % 10]
termination_by n
decreasing_by exact Nat.div_lt_self (by omega) (by omega)

/-- The Session State flag / Token Store consistency invariant: the
authenticated flag never holds without a stored record, and outside
startup initialization the two always agree. -/
def consistentAuth (s : AuthState × Storage) : Prop :=
  (s.1.isAuthenticated = true → recordPresent s.2 = true) ∧
  (s.1.isInitializing = false → (s.1.isAuthenticated = true ↔ recordPresent s.2 = true))

/-! ## Basic Token Store lemmas -/

theorem clearStoredToken_data (st : Storage) : ((clearStoredToken st).2).data = none := rfl

/-- Reading is idempotent: the state left behind by getStoredToken
re-reads to the same answer without further mutation. -/
theorem getStoredToken_heal (st : Storage) :
    getStoredToken (getStoredToken st).2 = ((getStoredToken st).1, (getStoredToken st).2) := by
  unfold getStoredToken clearStoredToken
  cases hd : st.data with
  | none => simp [hd]
  | some p =>
    by_cases hp : p = ""
    · simp [hd, hp]
    · cases hj : jsonParse p with
      | none => simp [hd, hp, hj]
      | some v =>
        by_cases hv : (truthy v && typeofObject v && truthy (jsGet v "token")) = true
        · simp [hd, hp, hj, hv]
        · simp [hd, hp, hj, hv]

/-- getTokenData and getStoredToken leave the same storage behind and
agree on whether a usable record exists. -/
theorem getTokenData_store_eq (st : Storage) :
    (getTokenData st).2 = (getStoredToken st).2 ∧
      (getTokenData st).1.isSome = (getStoredToken st).1.isSome := by
  unfold getTokenData getStoredToken
  cases hd : st.data with
  | none => simp
  | some p =>
    by_cases hp : p = ""
    · simp [hp]
    · cases hj : jsonParse p with
      | none => simp [hp, hj]
      | some v =>
        by_cases hv : (truthy v && typeofObject v && truthy (jsGet v "token")) = true
        · simp [hp, hj, hv]
        · simp [hp, hj, hv]

theorem recordPresent_heal (st : Storage) :
    recordPresent (getStoredToken st).2 = recordPresent st := by
  unfold recordPresent hasStoredToken
  rw [getStoredToken_heal]

theorem recordPresent_clear (st : Storage) :
    recordPresent (clearStoredToken st).2 = false := by
  unfold recordPresent hasStoredToken getStoredToken clearStoredToken
  simp

/-- getStoredToken only reports truthy tokens. -/
theorem getStoredToken_truthy {st : Storage} {v : JValue}
    (h : (getStoredToken st).1 = some v) : truthy v = true := by
  unfold getStoredToken at h
  cases hd : st.data with
  | none => rw [hd] at h; simp at h
  | some p =>
    rw [hd] at h
    by_cases hp : p = ""
    · simp [hp] at h
    · cases hj : jsonParse p with
      | none => simp [hp, hj] at h
      | some w =>
        by_cases hv : (truthy w && typeofObject w && truthy (jsGet w "token")) = true
        · simp [hp, hj, hv] at h
          simp only [Bool.and_eq_true] at hv
          rw [← h]
          exact hv.2
        · simp [hp, hj, hv] at h

/-- A successful storeToken always wrote a fresh serialized record for a
non-empty string token, on a store that accepts writes. -/
theorem storeToken_true {v : JValue} {now : Nat} {st : Storage}
    (h : (storeToken v now st).1 = true) :
    ∃ t, v = .jstr t ∧ t ≠ "" ∧ st.writeOk = true ∧
      (storeToken v now st).2 = { st with data := some (stringifyRecord t now) } := by
  unfold storeToken at h ⊢
  cases v with
  | jstr t =>
    by_cases ht : t = ""
    · simp [ht] at h
    · by_cases hw : st.writeOk = true
      · exact ⟨t, rfl, ht, hw, by simp [ht, hw]⟩
      · simp [ht, hw] at h
  | jundefined => simp at h
  | jnull => simp at h
  | jbool b => simp at h
  | jnum q => simp at h
  | jarr es => simp at h
  | jobj fs => simp at h

/-! ## Round trip: the serialized credential record parses back -/

theorem hexVal_hexDigitChar : ∀ m : Nat, m < 16 → hexVal? (hexDigitChar m) = some m := by decide

theorem parseStrChars_quote (r : List Char) : parseStrChars ('"' :: r) = some ([], r) := by
  rw [parseStrChars.eq_def]
  dsimp only
  rw [if_pos rfl]

theorem parseStrChars_plain {c : Char} (r : List Char) (h1 : ¬c = '"') (h2 : ¬c = '\\')
    (h3 : ¬c.toNat < 32) :
    parseStrChars (c :: r) = mapCons c (parseStrChars r) := by
  rw [parseStrChars.eq_def]
  dsimp only
  rw [if_neg h1, if_neg h2, if_neg h3]

theorem parseStrChars_backslash (e : Char) (r : List Char) :
    parseStrChars ('\\' :: e :: r) =
      (if e = '"' ∨ e = '\\' ∨ e = '/' then mapCons e (parseStrChars r)
       else if e = 'b' then mapCons (Char.ofNat 8) (parseStrChars r)
       else if e = 'f' then mapCons (Char.ofNat 12) (parseStrChars r)
       else if e = 'n' then mapCons (Char.ofNat 10) (parseStrChars r)
       else if e = 'r' then mapCons (Char.ofNat 13) (parseStrChars r)
       else if e = 't' then mapCons (Char.ofNat 9) (parseStrChars r)
       else if e = 'u' then
         match r with
         | h1 :: h2 :: h3 :: h4 :: r2 =>
           match hexVal? h1, hexVal? h2, hexVal? h3, hexVal? h4 with
           | some v1, some v2, some v3, some v4 =>
             mapCons (Char.ofNat (((v1 * 16 + v2) * 16 + v3) * 16 + v4)) (parseStrChars r2)
           | _, _, _, _ => none
         | _ => none
       else none) := by
  rw [parseStrChars.eq_def]
  dsimp only
  rw [if_neg (by decide), if_pos rfl]

/-- Strings quoted by the stringify model parse back to themselves. -/
theorem parseStr_round (cs rest : List Char) :
    parseStrChars (escapeChars cs ++ '"' :: rest) = some (cs, rest) := by
  induction cs with
  | nil =>
    rw [escapeChars, List.nil_append, parseStrChars_quote]
  | cons c cs ih =>
    rw [escapeChars, List.append_assoc]
    by_cases h1 : c = '"'
    · subst h1
      rw [show escChar '"' = ['\\', '"'] from rfl]
      simp only [List.cons_append, List.nil_append]
      rw [parseStrChars_backslash,
        if_pos (by decide : ('"' : Char) = '"' ∨ ('"' : Char) = '\\' ∨ ('"' : Char) = '/'), ih]
      rfl
    · by_cases h2 : c = '\\'
      · subst h2
        rw [show escChar '\\' = ['\\', '\\'] from rfl]
        simp only [List.cons_append, List.nil_append]
        rw [parseStrChars_backslash,
          if_pos (by decide : ('\\' : Char) = '"' ∨ ('\\' : Char) = '\\' ∨ ('\\' : Char) = '/'), ih]
        rfl
      · by_cases h3 : c.toNat < 32
        · have hofn : Char.ofNat c.toNat = c := Char.ofNat_toNat c
          by_cases hb8 : c.toNat = 8
          · have he : escChar c = ['\\', 'b'] := by rw [escChar]; simp [h1, h2, h3, hb8]
            rw [he]
            simp only [List.cons_append, List.nil_append]
            rw [parseStrChars_backslash, if_neg (by decide), if_pos rfl, ih]
            rw [show Char.ofNat 8 = c from by rw [← hb8, hofn]]
            rfl
          · by_cases hb9 : c.toNat = 9
            · have he : escChar c = ['\\', 't'] := by rw [escChar]; simp [h1, h2, h3, hb8, hb9]
              rw [he]
              simp only [List.cons_append, List.nil_append]
              rw [parseStrChars_backslash, if_neg (by decide), if_neg (by decide),
                if_neg (by decide), if_neg (by decide), if_neg (by decide), if_pos rfl, ih]
              rw [show Char.ofNat 9 = c from by rw [← hb9, hofn]]
              rfl
            · by_cases hb10 : c.toNat = 10
              · have he : escChar c = ['\\', 'n'] := by
                  rw [escChar]; simp [h1, h2, h3, hb8, hb9, hb10]
                rw [he]
                simp only [List.cons_append, List.nil_append]
                rw [parseStrChars_backslash, if_neg (by decide), if_neg (by decide),
                  if_neg (by decide), if_pos rfl, ih]
                rw [show Char.ofNat 10 = c from by rw [← hb10, hofn]]
                rfl
              · by_cases hb12 : c.toNat = 12
                · have he : escChar c = ['\\', 'f'] := by
                    rw [escChar]; simp [h1, h2, h3, hb8, hb9, hb10, hb12]
                  rw [he]
                  simp only [List.cons_append, List.nil_append]
                  rw [parseStrChars_backslash, if_neg (by decide), if_neg (by decide),
                    if_pos rfl, ih]
                  rw [show Char.ofNat 12 = c from by rw [← hb12, hofn]]
                  rfl
                · by_cases hb13 : c.toNat = 13
                  · have he : escChar c = ['\\', 'r'] := by
                      rw [escChar]; simp [h1, h2, h3, hb8, hb9, hb10, hb12, hb13]
                    rw [he]
                    simp only [List.cons_append, List.nil_append]
                    rw [parseStrChars_backslash, if_neg (by decide), if_neg (by decide),
                      if_neg (by decide), if_neg (by decide), if_pos rfl, ih]
                    rw [show Char.ofNat 13 = c from by rw [← hb13, hofn]]
                    rfl
                  · have he : escChar c =
                        ['\\', 'u', '0', '0', hexDigitChar (c.toNat / 16),
                          hexDigitChar (c.toNat % 16)] := by
                      rw [escChar]; simp [h1, h2, h3, hb8, hb9, hb10, hb12, hb13]
                    rw [he]
                    simp only [List.cons_append, List.nil_append]
                    rw [parseStrChars_backslash, if_neg (by decide), if_neg (by decide),
                      if_neg (by decide), if_neg (by decide), if_neg (by decide),
                      if_neg (by decide), if_pos rfl]
                    have e1 : hexVal? (hexDigitChar (c.toNat / 16)) = some (c.toNat / 16) :=
                      hexVal_hexDigitChar _ (by omega)
                    have e2 : hexVal? (hexDigitChar (c.toNat % 16)) = some (c.toNat % 16) :=
                      hexVal_hexDigitChar _ (by omega)
                    simp only [e1, e2, show hexVal? '0' = some 0 from rfl, ih]
                    rw [show ((0 * 16 + 0) * 16 + c.toNat / 16) * 16 + c.toNat % 16 = c.toNat from by
                      omega]
                    rw [hofn]
                    rfl
        · have he : escChar c = [c] := by
            rw [escChar]; simp [h1, h2, h3]
          rw [he, List.cons_append, List.nil_append, parseStrChars_plain _ h1 h2 h3, ih]
          rfl

theorem natDecimalChars_eq_map (n : Nat) :
    natDecimalChars n = (decDigitVals n).map digitChar := by
  induction n using Nat.strong_induction_on with
  | _ n ih =>
    rw [natDecimalChars, decDigitVals]
    by_cases h : n < 10
    · simp [h]
    · simp [h, ih (n / 10) (Nat.div_lt_self (by omega) (by omega))]

theorem digitVal_digitChar : ∀ d : Nat, d < 10 → digitVal? (digitChar d) = some d := by decide

theorem digitChar_ne_dash : ∀ d : Nat, d < 10 → ¬digitChar d = '-' := by decide

theorem digitChar_eq_zero : ∀ d : Nat, d < 10 → (digitChar d = '0' ↔ d = 0) := by decide

theorem decDigitVals_facts (n : Nat) :
    ∃ d0 ds, decDigitVals n = d0 :: ds ∧ d0 < 10 ∧ (∀ d ∈ ds, d < 10) ∧
      (10 ≤ n → d0 ≠ 0) ∧ (n < 10 → d0 = n ∧ ds = []) := by
  induction n using Nat.strong_induction_on with
  | _ n ih =>
    rw [decDigitVals]
    by_cases h : n < 10
    · exact ⟨n, [], by simp [h], h, by simp, by omega, fun _ => ⟨rfl, rfl⟩⟩
    · obtain ⟨d0, ds, hdv, hd0, hds, hne, hlt⟩ :=
        ih (n / 10) (Nat.div_lt_self (by omega) (by omega))
      refine ⟨d0, ds ++ [n % 10], by simp [h, hdv], hd0, ?_, ?_, by omega⟩
      · intro d hd
        rcases List.mem_append.mp hd with h1 | h1
        · exact hds d h1
        · simp at h1
          omega
      · intro _
        by_cases h10 : 10 ≤ n / 10
        · exact hne h10
        · have := hlt (by omega)
          omega

theorem digitsToNat_append_one (a : List Nat) (d : Nat) :
    digitsToNat (a ++ [d]) = 10 * digitsToNat a + d := by
  unfold digitsToNat
  rw [List.foldl_append]
  rfl

theorem digitsToNat_decDigitVals (n : Nat) : digitsToNat (decDigitVals n) = n := by
  induction n using Nat.strong_induction_on with
  | _ n ih =>
    rw [decDigitVals]
    by_cases h : n < 10
    · simp [h, digitsToNat]
    · rw [dif_neg h, digitsToNat_append_one, ih (n / 10) (Nat.div_lt_self (by omega) (by omega))]
      omega

theorem takeDigits_stop {c : Char} (r : List Char) (hc : digitVal? c = none) :
    takeDigits (c :: r) = ([], c :: r) := by
  simp [takeDigits, hc]

theorem takeDigits_map (ds : List Nat) (hds : ∀ d ∈ ds, d < 10) {c : Char} (r : List Char)
    (hc : digitVal? c = none) :
    takeDigits (ds.map digitChar ++ c :: r) = (ds, c :: r) := by
  induction ds with
  | nil => simpa using takeDigits_stop r hc
  | cons d ds ih =>
    have hd : d < 10 := hds d (by simp)
    rw [List.map_cons, List.cons_append]
    simp only [takeDigits, digitVal_digitChar d hd]
    rw [ih (fun x hx => hds x (by simp [hx]))]

theorem parseSign_cons {c : Char} (l : List Char) (h : ¬c = '-') :
    parseSign (c :: l) = (false, c :: l) := by
  rw [parseSign.eq_def]
  split
  · next r heq =>
    rw [List.cons.injEq] at heq
    exact absurd heq.1 h
  · rfl

theorem parseIntPart_natDecimal (n : Nat) (r : List Char) :
    parseIntPart (natDecimalChars n ++ '}' :: r) = some (n, '}' :: r) := by
  obtain ⟨d0, ds, hdv, hd0, hds, hne, hlt⟩ := decDigitVals_facts n
  rw [natDecimalChars_eq_map, hdv, List.map_cons, List.cons_append]
  by_cases h0 : d0 = 0
  · have hn : n < 10 := by
      by_contra hge
      exact hne (by omega) h0
    have := hlt hn
    have hn0 : n = 0 := by omega
    subst hn0
    have : ds = [] := this.2
    subst this
    have : d0 = 0 := h0
    rw [show digitChar d0 = '0' from by rw [h0]; rfl]
    rw [parseIntPart]
    simp
  · rw [parseIntPart.eq_def]
    split
    · next r2 heq =>
      rw [List.cons.injEq] at heq
      exact absurd ((digitChar_eq_zero d0 hd0).mp heq.1) h0
    · next c r2 heq =>
      rw [List.cons.injEq] at heq
      obtain ⟨hc, hr⟩ := heq
      subst hc
      subst hr
      rw [digitVal_digitChar d0 hd0]
      rw [takeDigits_map ds hds r (by decide)]
      have : digitsToNat (d0 :: ds) = n := by
        rw [← hdv, digitsToNat_decDigitVals]
      simp [this]
    · next heq => exact absurd heq (by simp)

theorem parseFracPart_stop {c : Char} (l : List Char) (h : ¬c = '.') :
    parseFracPart (c :: l) = some (0, c :: l) := by
  rw [parseFracPart.eq_def]
  split
  · next r heq =>
    rw [List.cons.injEq] at heq
    exact absurd heq.1 h
  · rfl

theorem parseExpPart_stop {c : Char} (l : List Char) (h1 : ¬c = 'e') (h2 : ¬c = 'E') :
    parseExpPart (c :: l) = some (0, c :: l) := by
  rw [parseExpPart.eq_def]
  split
  · next r heq =>
    rw [List.cons.injEq] at heq
    exact absurd heq.1 h1
  · next r heq =>
    rw [List.cons.injEq] at heq
    exact absurd heq.1 h2
  · rfl

/-- The decimal print of a natural number parses back as that number
when followed by a closing brace. -/
theorem parseNum_natBrace (n : Nat) (r : List Char) :
    parseNum (natDecimalChars n ++ '}' :: r) = some ((n : Rat), '}' :: r) := by
  obtain ⟨d0, ds, hdv, hd0, hds, hne, hlt⟩ := decDigitVals_facts n
  have hshape : natDecimalChars n ++ '}' :: r = digitChar d0 :: (ds.map digitChar ++ '}' :: r) := by
    rw [natDecimalChars_eq_map, hdv, List.map_cons, List.cons_append]
  rw [parseNum, hshape, parseSign_cons _ (digitChar_ne_dash d0 hd0), ← hshape,
    parseIntPart_natDecimal]
  dsimp only
  rw [parseFracPart_stop _ (by decide)]
  dsimp only
  rw [parseExpPart_stop _ (by decide) (by decide)]
  norm_num

theorem skipWs_cons {c : Char} (r : List Char) (h : isJsonWs c = false) :
    skipWs (c :: r) = c :: r := by
  rw [skipWs, h]
  simp

theorem digitChar_headFacts : ∀ d : Nat, d < 10 →
    isJsonWs (digitChar d) = false ∧ ¬digitChar d = '"' ∧ ¬digitChar d = '{' ∧
      ¬digitChar d = '[' ∧ ¬digitChar d = 't' ∧ ¬digitChar d = 'f' ∧
      ¬digitChar d = 'n' ∧ (digitVal? (digitChar d)).isSome = true := by decide

theorem parseValue_strLit (f : Nat) (cs rest : List Char) :
    parseV (f + 1) .value ('"' :: (escapeChars cs ++ '"' :: rest)) =
      some (.jstr (String.mk cs), rest) := by
  rw [show f + 1 = Nat.succ f from rfl, parseV, skipWs_cons _ (by decide)]
  dsimp only
  rw [if_pos rfl, parseStr_round]
  rfl

theorem parseValue_natLit (f now : Nat) (r : List Char) :
    parseV (f + 1) .value (natDecimalChars now ++ '}' :: r) =
      some (.jnum (now : Rat), '}' :: r) := by
  obtain ⟨d0, ds, hdv, hd0, hds, hne, hlt⟩ := decDigitVals_facts now
  have hshape : natDecimalChars now ++ '}' :: r =
      digitChar d0 :: (ds.map digitChar ++ '}' :: r) := by
    rw [natDecimalChars_eq_map, hdv, List.map_cons, List.cons_append]
  obtain ⟨hws, hq, hob, hab, ht, hf, hn, hdig⟩ := digitChar_headFacts d0 hd0
  rw [show f + 1 = Nat.succ f from rfl, parseV, hshape, skipWs_cons _ hws]
  dsimp only
  rw [if_neg hq, if_neg hob, if_neg hab, if_neg ht, if_neg hf, if_neg hn,
    if_pos (Or.inr hdig), ← hshape, parseNum_natBrace]
  rfl


theorem parseMembers_timestamp (f now : Nat) :
    parseV (f + 2) .members
      ('"' :: 't' :: 'i' :: 'm' :: 'e' :: 's' :: 't' :: 'a' :: 'm' :: 'p' :: '"' :: ':' ::
        (natDecimalChars now ++ '}' :: [])) =
      some (.jobj [("timestamp", .jnum (now : Rat))], []) := by
  have hts : ∀ rest : List Char,
      ('t' :: 'i' :: 'm' :: 'e' :: 's' :: 't' :: 'a' :: 'm' :: 'p' :: '"' :: rest : List Char) =
        escapeChars "timestamp".data ++ '"' :: rest := fun rest => rfl
  rw [show f + 2 = Nat.succ (f + 1) from rfl, parseV.eq_def]
  dsimp only
  rw [skipWs_cons _ (by decide)]
  dsimp only
  rw [if_pos rfl, hts, parseStr_round]
  dsimp only
  rw [skipWs_cons _ (by decide)]
  dsimp only
  rw [if_pos rfl, parseValue_natLit]
  dsimp only
  rw [skipWs_cons _ (by decide)]
  dsimp only
  rw [if_neg (by decide), if_pos rfl]

theorem parseMembers_record (f : Nat) (t : String) (now : Nat) :
    parseV (f + 3) .members
      ('"' :: 't' :: 'o' :: 'k' :: 'e' :: 'n' :: '"' :: ':' :: '"' ::
        (escapeChars t.data ++ '"' :: ',' :: '"' :: 't' :: 'i' :: 'm' :: 'e' :: 's' :: 't' ::
          'a' :: 'm' :: 'p' :: '"' :: ':' :: (natDecimalChars now ++ '}' :: []))) =
      some (.jobj [("token", .jstr t), ("timestamp", .jnum (now : Rat))], []) := by
  have hk : ∀ rest : List Char,
      ('t' :: 'o' :: 'k' :: 'e' :: 'n' :: '"' :: rest : List Char) =
        escapeChars "token".data ++ '"' :: rest := fun rest => rfl
  rw [show f + 3 = Nat.succ (f + 2) from rfl, parseV.eq_def]
  dsimp only
  rw [skipWs_cons _ (by decide)]
  dsimp only
  rw [if_pos rfl, hk, parseStr_round]
  dsimp only
  rw [skipWs_cons _ (by decide)]
  dsimp only
  rw [if_pos rfl, parseValue_strLit (f + 1)]
  dsimp only
  rw [skipWs_cons _ (by decide)]
  dsimp only
  rw [if_pos rfl, parseMembers_timestamp]

theorem parseValue_record (f : Nat) (t : String) (now : Nat) :
    parseV (f + 4) .value (recordChars t now) =
      some (.jobj [("token", .jstr t), ("timestamp", .jnum (now : Rat))], []) := by
  rw [recordChars]
  simp only [List.append_assoc, List.cons_append, List.nil_append]
  rw [show f + 4 = Nat.succ (f + 3) from rfl, parseV]
  rw [skipWs_cons _ (by decide)]
  dsimp only
  rw [if_neg (by decide), if_pos rfl, skipWs_cons _ (by decide)]
  dsimp only [closeOrBody]
  rw [if_neg (by decide), parseMembers_record]

theorem jsonParse_stringifyRecord (t : String) (now : Nat) :
    jsonParse (stringifyRecord t now) =
      some (.jobj [("token", .jstr t), ("timestamp", .jnum (now : Rat))]) := by
  have hlen : 3 ≤ (stringifyRecord t now).length := by
    show 3 ≤ (recordChars t now).length
    rw [recordChars]
    simp [List.length_append]
  obtain ⟨g, hg⟩ : ∃ g, (stringifyRecord t now).length + 1 = g + 4 :=
    ⟨(stringifyRecord t now).length - 3, by omega⟩
  unfold jsonParse
  rw [show (stringifyRecord t now).data = recordChars t now from rfl, hg, parseValue_record]
  rfl

/-! ## Lemmas about the gateway, the agents and the auth state machine -/

theorem jsGet_record (x y : JValue) :
    jsGet (.jobj [("token", x), ("timestamp", y)]) "token" = x := by
  simp [jsGet]

theorem recordPresent_dataNone (w : Bool) : recordPresent ⟨none, w⟩ = false := rfl

theorem recordPresent_stringify {t : String} (now : Nat) (w : Bool) (ht : t ≠ "") :
    recordPresent ⟨some (stringifyRecord t now), w⟩ = true := by
  unfold recordPresent hasStoredToken getStoredToken
  have hne : stringifyRecord t now ≠ "" := by
    intro h
    have h2 : (recordChars t now).length = (("" : String).data).length := by
      rw [show recordChars t now = (stringifyRecord t now).data from rfl, h]
    rw [recordChars] at h2
    simp at h2
  dsimp only
  rw [if_neg hne, jsonParse_stringifyRecord]
  dsimp only
  have hcond : (truthy (JValue.jobj [("token", JValue.jstr t), ("timestamp", JValue.jnum (now : Rat))]) &&
      typeofObject (JValue.jobj [("token", JValue.jstr t), ("timestamp", JValue.jnum (now : Rat))]) &&
      truthy (jsGet (JValue.jobj [("token", JValue.jstr t), ("timestamp", JValue.jnum (now : Rat))]) "token")) = true := by
    rw [jsGet_record]
    simp [truthy, typeofObject, ht]
  rw [if_pos hcond]
  rfl

theorem requiresAuth_not_login {url : String} (h : requiresAuth url = true) :
    isLoginRequest url = false := by
  unfold requiresAuth at h
  rw [Bool.and_eq_true, Bool.not_eq_true'] at h
  unfold isPublicEndpoint at h
  unfold isLoginRequest LOGIN_ENDPOINT
  rcases h with ⟨_, hpub⟩
  by_contra hl
  rw [Bool.not_eq_false] at hl
  have : PUBLIC_ENDPOINTS.any (fun pub => strIncludes url pub) = true := by
    rw [List.any_eq_true]
    exact ⟨"/api/login", by rw [PUBLIC_ENDPOINTS]; simp, hl⟩
  rw [this] at hpub
  exact Bool.true_eq_false.mp hpub

theorem recordPresent_lookup (skipAuth : Bool) (url : String) (st : Storage) :
    recordPresent
      (if (!skipAuth && !isLoginRequest url) = true then getStoredToken st else (none, st)).2 =
      recordPresent st := by
  by_cases hl : (!skipAuth && !isLoginRequest url) = true
  · rw [if_pos hl, recordPresent_heal]
  · rw [if_neg hl]

/-- What one gateway call can do to the broadcast channel and the store:
either no event and an unchanged credential-presence, or a single 401/403
event with the store cleared. -/
theorem request_store_events (url : String) (skipAuth : Bool) (env : Option Resp) (st : Storage) :
    ((request url skipAuth env st).events = [] ∧
      recordPresent (request url skipAuth env st).store = recordPresent st) ∨
    (∃ s, (request url skipAuth env st).events = [s] ∧ (s = 401 ∨ s = 403) ∧
      (request url skipAuth env st).store.data = none) := by
  unfold request
  dsimp only
  by_cases hb : ((!skipAuth && !isLoginRequest url) &&
      (if (!skipAuth && !isLoginRequest url) = true then getStoredToken st else (none, st)).1.isNone &&
      requiresAuth url) = true
  · rw [if_pos hb]
    exact Or.inl ⟨rfl, recordPresent_lookup skipAuth url st⟩
  · rw [if_neg hb]
    cases env with
    | none =>
      dsimp only
      exact Or.inl ⟨rfl, recordPresent_lookup skipAuth url st⟩
    | some r =>
      dsimp only
      by_cases hs : r.status = 401 ∨ r.status = 403
      · rw [if_pos hs]
        exact Or.inr ⟨r.status, rfl, hs, rfl⟩
      · rw [if_neg hs]
        exact Or.inl ⟨rfl, recordPresent_lookup skipAuth url st⟩

/-- Every failure path of login leaves the store cleared; the success
path leaves exactly the freshly serialized record. -/
theorem loginAgent_store (creds : JValue) (now : Nat) (env : Option Resp) (st : Storage) :
    (∃ data t, (loginAgent creds now env st).result = .ok data ∧
      jsGet data "token" = .jstr t ∧ t ≠ "" ∧
      (loginAgent creds now env st).store.data = some (stringifyRecord t now)) ∨
    ((∃ m, (loginAgent creds now env st).result = .error m) ∧
      (loginAgent creds now env st).store.data = none) := by
  unfold loginAgent
  dsimp only
  split
  · exact Or.inr ⟨⟨_, rfl⟩, rfl⟩
  · exact Or.inr ⟨⟨_, rfl⟩, rfl⟩
  · exact Or.inr ⟨⟨_, rfl⟩, rfl⟩
  · next resp _ =>
    split
    · split
      · exact Or.inr ⟨⟨_, rfl⟩, rfl⟩
      · exact Or.inr ⟨⟨_, rfl⟩, rfl⟩
      · next data _ =>
        split
        · split
          · next hw =>
            obtain ⟨t, hv, ht, _, hst⟩ := storeToken_true hw
            refine Or.inl ⟨data, t, rfl, hv, ht, ?_⟩
            rw [hst]
          · exact Or.inr ⟨⟨_, rfl⟩, rfl⟩
        · exact Or.inr ⟨⟨_, rfl⟩, rfl⟩
    · exact Or.inr ⟨⟨_, rfl⟩, rfl⟩

/-- logout always leaves the store cleared. -/
theorem logoutAgent_store (env : Option Resp) (st : Storage) :
    ((logoutAgent env st).1).data = none := by
  unfold logoutAgent
  dsimp only
  split
  · rfl
  · rfl

theorem validateTokenAgent_invalid_store (env : Option Resp) (st : Storage) :
    (validateTokenAgent env st).1.1 = false →
      recordPresent (validateTokenAgent env st).2.1 = false := by
  unfold validateTokenAgent
  dsimp only
  split
  · next hg =>
    intro _
    rw [recordPresent_heal]
    unfold recordPresent hasStoredToken
    dsimp only
    rw [hg]
    rfl
  · next v hg =>
    split
    · intro _
      exact recordPresent_clear _
    · split
      · split
        · intro h
          exact absurd h (by simp)
        · intro _
          exact recordPresent_clear _
      · intro _
        exact recordPresent_clear _

theorem getTokenAge_store (now : Rat) (st : Storage) :
    (getTokenAge now st).2 = (getTokenData st).2 := by
  unfold getTokenAge
  dsimp only
  split
  · rfl
  · split
    · rfl
    · rfl

theorem isTokenExpired_store (now maxAge : Rat) (st : Storage) :
    recordPresent (isTokenExpired now maxAge st).2 = recordPresent st := by
  have h2 : (getTokenData st).2 = (getStoredToken st).2 := (getTokenData_store_eq st).1
  unfold isTokenExpired
  dsimp only
  split
  · rw [getTokenAge_store, h2, recordPresent_heal]
  · rw [getTokenAge_store, h2, recordPresent_heal]
  · rw [getTokenAge_store, h2, recordPresent_heal]

theorem recordPresent_false_of_none {st : Storage} (h : st.data = none) :
    recordPresent st = false := by
  cases st with
  | mk d w =>
    dsimp only at h
    subst h
    rfl

theorem recordPresent_true_of_stringify {st : Storage} {t : String} {now : Nat}
    (h : st.data = some (stringifyRecord t now)) (ht : t ≠ "") : recordPresent st = true := by
  cases st with
  | mk d w =>
    dsimp only at h
    subst h
    exact recordPresent_stringify now w ht

/-- The initializeAuth payload is authenticated exactly when the store it
leaves behind holds a credential record. -/
theorem initThunk_auth (env : Option Resp) (st : Storage) :
    truthy (initThunk env st).1.1 = recordPresent (initThunk env st).2 := by
  unfold initThunk
  dsimp only
  by_cases hv : (validateTokenAgent env st).1.1 = true
  · rw [if_pos hv]
    dsimp only
    split
    · next v hp =>
      rw [getStoredToken_truthy hp, recordPresent_heal]
      unfold recordPresent hasStoredToken
      dsimp only
      rw [hp]
      rfl
    · next hp =>
      show truthy .jnull = _
      rw [recordPresent_heal]
      unfold recordPresent hasStoredToken
      dsimp only
      rw [hp]
      rfl
  · rw [if_neg hv]
    dsimp only
    rw [Bool.not_eq_true] at hv
    rw [validateTokenAgent_invalid_store env st hv]
    rfl

theorem reachable_consistent : ∀ s, Reachable s → consistentAuth s := by
  intro s h
  induction h with
  | boot st =>
    refine ⟨fun h => ?_, fun h => ?_⟩ <;> simp [initialState] at h
  | step hr hstep ih =>
    cases hstep with
    | loginPending a st => exact ⟨ih.1, ih.2⟩
    | logoutPending a st => exact ⟨ih.1, ih.2⟩
    | ackError a st => exact ⟨ih.1, ih.2⟩
    | initPending a st => exact ⟨ih.1, fun h => by simp [initPendingR] at h⟩
    | loginSettle a st creds now env =>
      rcases loginAgent_store creds now env st with ⟨data, t, hres, _, ht, hd⟩ | ⟨⟨m, hres⟩, hd⟩
      · unfold consistentAuth
        rw [hres]
        have hp := recordPresent_true_of_stringify hd ht
        exact ⟨fun _ => hp, fun _ => ⟨fun _ => hp, fun _ => rfl⟩⟩
      · unfold consistentAuth
        rw [hres]
        have hp := recordPresent_false_of_none hd
        refine ⟨fun h => absurd h (by simp [applyLoginResult]), fun _ => ?_⟩
        rw [hp]
        simp [applyLoginResult]
    | logoutSettle a st env =>
      unfold consistentAuth
      have hp := recordPresent_false_of_none (logoutAgent_store env st)
      refine ⟨fun h => absurd h (by simp [applyLogout]), fun _ => ?_⟩
      rw [hp]
      simp [applyLogout]
    | initSettle a st env =>
      unfold consistentAuth
      have hia := initThunk_auth env st
      exact ⟨fun h => hia ▸ h, fun _ => ⟨fun h => hia ▸ h, fun h => by rw [← hia] at h; exact h⟩⟩
    | externalInvalidation a st status =>
      unfold handleAuthErrorEvent
      by_cases hs : status = 401 ∨ status = 403
      · rw [if_pos hs]
        unfold consistentAuth
        have hp : recordPresent (clearAuthToken a st).2 = false :=
          recordPresent_false_of_none rfl
        refine ⟨fun h => absurd h (by simp [clearAuthToken]), fun _ => ?_⟩
        rw [hp]
        simp [clearAuthToken]
      · rw [if_neg hs]
        exact ih
    | apiCall a st url skipAuth env =>
      unfold stepApi
      dsimp only
      rcases request_store_events url skipAuth env st with ⟨he, hp⟩ | ⟨sE, he, hs, hd⟩
      · rw [he]
        dsimp only
        exact ⟨fun h => hp ▸ ih.1 h, fun h2 => by rw [hp]; exact ih.2 h2⟩
      · rw [he]
        dsimp only
        unfold handleAuthErrorEvent
        rw [if_pos hs]
        unfold consistentAuth
        have hp2 : recordPresent (clearAuthToken a (request url skipAuth env st).store).2 = false :=
          recordPresent_false_of_none rfl
        refine ⟨fun h => absurd h (by simp [clearAuthToken]), fun _ => ?_⟩
        rw [hp2]
        simp [clearAuthToken]
    | expiryCheck a st now maxAge =>
      by_cases he : (isTokenExpired now maxAge st).1 = true
      · rw [if_pos he]
        unfold consistentAuth
        have hp : recordPresent (clearAuthToken a (isTokenExpired now maxAge st).2).2 = false :=
          recordPresent_false_of_none rfl
        refine ⟨fun h => absurd h (by simp [clearAuthToken]), fun _ => ?_⟩
        rw [hp]
        simp [clearAuthToken]
      · rw [if_neg he]
        have hp := isTokenExpired_store now maxAge st
        exact ⟨fun h => hp ▸ ih.1 h, fun h2 => by rw [hp]; exact ih.2 h2⟩

/-! ## Further helper lemmas for the claims -/

theorem listIncludes_substring (sub l : List Char) : listIncludes sub l = true ↔ sub <:+: l := by
  induction l with
  | nil =>
    rw [listIncludes, List.isPrefixOf_iff_prefix]
    simp
  | cons c r ih =>
    rw [listIncludes, Bool.or_eq_true, List.isPrefixOf_iff_prefix, ih, List.infix_cons_iff]

theorem stringifyRecord_ne_empty (t : String) (now : Nat) : stringifyRecord t now ≠ "" := by
  intro h
  have h2 : (recordChars t now).length = (("" : String).data).length := by
    rw [show recordChars t now = (stringifyRecord t now).data from rfl, h]
  rw [recordChars] at h2
  simp at h2

/-- getTokenData on a freshly serialized record parses it back. -/
theorem getTokenData_stringify (t : String) (now : Nat) (w : Bool) (ht : t ≠ "") :
    (getTokenData ⟨some (stringifyRecord t now), w⟩).1 =
      some (.jobj [("token", .jstr t), ("timestamp", .jnum (now : Rat))]) := by
  unfold getTokenData
  dsimp only
  rw [if_neg (stringifyRecord_ne_empty t now), jsonParse_stringifyRecord]
  dsimp only
  have hcond : (truthy (JValue.jobj [("token", JValue.jstr t), ("timestamp", JValue.jnum (now : Rat))]) &&
      typeofObject (JValue.jobj [("token", JValue.jstr t), ("timestamp", JValue.jnum (now : Rat))]) &&
      truthy (jsGet (JValue.jobj [("token", JValue.jstr t), ("timestamp", JValue.jnum (now : Rat))]) "token")) = true := by
    rw [jsGet_record]
    simp [truthy, typeofObject, ht]
  rw [if_pos hcond]

/-! ## The claims -/

/-- C1: a 401 or 403 response on a protected request that was actually
transmitted synchronously clears the Token Store, broadcasts exactly one
auth-error event consumable by any listener, and fails the call with the
auth-rejected error; the middleware reaction to that event leaves the
Redux session unauthenticated with the store empty - from any prior store
state, so whichever of N concurrent calls triggers it collapses the
session the same way. -/
theorem claim_C1 (url : String) (skipAuth : Bool) (st : Storage) (a : AuthState) (r : Resp)
    (hprot : requiresAuth url = true)
    (hstatus : r.status = 401 ∨ r.status = 403)
    (hsent : (request url skipAuth (some r) st).calls ≠ []) :
    (request url skipAuth (some r) st).store.data = none ∧
    (request url skipAuth (some r) st).events = [r.status] ∧
    (request url skipAuth (some r) st).result = .error (.authRejected r.status) ∧
    (handleAuthErrorEvent r.status a (request url skipAuth (some r) st).store).1.isAuthenticated
      = false ∧
    (handleAuthErrorEvent r.status a (request url skipAuth (some r) st).store).2.data = none := by
  have _ := hprot
  unfold request at hsent ⊢
  by_cases hb : ((!skipAuth && !isLoginRequest url) &&
      (if (!skipAuth && !isLoginRequest url) = true then getStoredToken st else (none, st)).1.isNone &&
      requiresAuth url) = true
  · rw [if_pos hb] at hsent
    exact absurd rfl hsent
  · rw [if_neg hb]
    dsimp only
    rw [if_pos hstatus]
    refine ⟨rfl, rfl, rfl, ?_, ?_⟩
    · unfold handleAuthErrorEvent
      rw [if_pos hstatus]
      rfl
    · unfold handleAuthErrorEvent
      rw [if_pos hstatus]
      rfl

theorem claim_C1_witness :
    (request "/api/mode" false (some ⟨401, none, none, ""⟩)
      ⟨some "\x7b\"token\":\"abc\",\"timestamp\":5\x7d", true⟩).store.data = none ∧
    (request "/api/mode" false (some ⟨401, none, none, ""⟩)
      ⟨some "\x7b\"token\":\"abc\",\"timestamp\":5\x7d", true⟩).events = [(401 : Nat)] ∧
    (request "/api/mode" false (some ⟨401, none, none, ""⟩)
      ⟨some "\x7b\"token\":\"abc\",\"timestamp\":5\x7d", true⟩).result =
        .error (.authRejected 401) ∧
    (handleAuthErrorEvent 401 ⟨.jstr "abc", true, false, false, none, .jnull⟩
      (request "/api/mode" false (some ⟨401, none, none, ""⟩)
        ⟨some "\x7b\"token\":\"abc\",\"timestamp\":5\x7d", true⟩).store).1.isAuthenticated
      = false ∧
    (handleAuthErrorEvent 401 ⟨.jstr "abc", true, false, false, none, .jnull⟩
      (request "/api/mode" false (some ⟨401, none, none, ""⟩)
        ⟨some "\x7b\"token\":\"abc\",\"timestamp\":5\x7d", true⟩).store).2.data = none :=
  claim_C1 "/api/mode" false ⟨some "\x7b\"token\":\"abc\",\"timestamp\":5\x7d", true⟩
    ⟨.jstr "abc", true, false, false, none, .jnull⟩ ⟨401, none, none, ""⟩
    rfl (Or.inl rfl) (by decide)

/-- C2 (amended): for a request without skipAuth to an endpoint that
requires authentication, when no credential is stored the call fails with
the auth-required error and no fetch is transmitted; the frozen claim's
universal form fails because skipAuth bypasses the block (see the
counterexample). -/
theorem claim_C2 (url : String) (env : Option Resp) (st : Storage)
    (hreq : requiresAuth url = true)
    (hno : (getStoredToken st).1 = none) :
    (request url false env st).result = .error .authRequired ∧
    (request url false env st).calls = [] := by
  have hlogin : isLoginRequest url = false := requiresAuth_not_login hreq
  unfold request
  have hcond : ((!false && !isLoginRequest url) &&
      (if (!false && !isLoginRequest url) = true then getStoredToken st else (none, st)).1.isNone &&
      requiresAuth url) = true := by
    rw [hlogin, hreq]
    simp [hno]
  rw [if_pos hcond]
  exact ⟨rfl, rfl⟩

theorem claim_C2_witness :
    (request "/api/mode" false (some ⟨200, none, none, ""⟩) ⟨none, true⟩).result =
      .error .authRequired ∧
    (request "/api/mode" false (some ⟨200, none, none, ""⟩) ⟨none, true⟩).calls = [] :=
  claim_C2 "/api/mode" (some ⟨200, none, none, ""⟩) ⟨none, true⟩ rfl rfl

/-- C2 as frozen is false: with skipAuth set, a request to the protected
/api/mode endpoint with no stored credential is transmitted (one fetch,
a passthrough result) instead of failing with the auth-required error. -/
theorem claim_C2_counterexample :
    requiresAuth "/api/mode" = true ∧
    (getStoredToken ⟨none, true⟩).1 = none ∧
    (request "/api/mode" true (some ⟨200, none, none, ""⟩) ⟨none, true⟩).calls = ["/api/mode"] ∧
    (request "/api/mode" true (some ⟨200, none, none, ""⟩) ⟨none, true⟩).result =
      .ok ⟨200, none, none, ""⟩ :=
  ⟨rfl, rfl, rfl, rfl⟩

/-- C3: the login operation performs no local credential validation -
with empty username and password it still issues the POST to the login
endpoint (one network call), even though the repository's own
validateLoginCredentials rejects exactly that credential pair; the
validator is dead code, so the spec's fail-fast ValidationError contract
does not hold. -/
theorem claim_C3 :
    (loginAgent (.jobj [("username", .jstr ""), ("password", .jstr "")]) 0
      (some ⟨401, some "application/json", none, ""⟩) ⟨none, true⟩).calls = [LOGIN_ENDPOINT] ∧
    validateLoginCredentials "" "" = false :=
  ⟨rfl, rfl⟩

/-- C4 (amended): in every reachable state the authenticated flag implies
a stored credential record, and outside startup initialization the two
agree exactly; every clearing operation (the clearAuthToken reducer,
logout settlement, the logout agent) clears both sides in the same step.
The frozen unconditional iff fails during initialization (see the
counterexample). -/
theorem claim_C4 :
    (∀ s, Reachable s → consistentAuth s) ∧
    (∀ a st, (clearAuthToken a st).1.isAuthenticated = false ∧
      (clearAuthToken a st).2.data = none) ∧
    (∀ a, (applyLogout a).isAuthenticated = false) ∧
    (∀ env st, ((logoutAgent env st).1).data = none) :=
  ⟨reachable_consistent, fun _ _ => ⟨rfl, rfl⟩, fun _ => rfl, logoutAgent_store⟩

theorem claim_C4_witness : consistentAuth (initialState, ⟨none, true⟩) :=
  claim_C4.1 (initialState, ⟨none, true⟩) (Reachable.boot ⟨none, true⟩)

/-- C4 as frozen is false: at boot with a persisted credential record the
store reports a record while the session is still unauthenticated, so the
unconditional iff between the flag and record presence fails. -/
theorem claim_C4_counterexample :
    Reachable (initialState, ⟨some "\x7b\"token\":\"abc\",\"timestamp\":5\x7d", true⟩) ∧
    initialState.isAuthenticated = false ∧
    recordPresent ⟨some "\x7b\"token\":\"abc\",\"timestamp\":5\x7d", true⟩ = true :=
  ⟨Reachable.boot _, rfl, rfl⟩

/-- C5 (amended): isPublicEndpoint tests substring containment of some
declared public endpoint (not equality), and requiresAuth is the
conjunction of a /api/ prefix with non-publicness (not the plain
negation of isPublic). -/
theorem claim_C5 (p : String) :
    (isPublicEndpoint p = true ↔ ∃ e ∈ PUBLIC_ENDPOINTS, e.data <:+: p.data) ∧
    (requiresAuth p = true ↔ ("/api/".data <+: p.data ∧ isPublicEndpoint p = false)) := by
  constructor
  · unfold isPublicEndpoint strIncludes
    rw [List.any_eq_true]
    constructor
    · rintro ⟨e, he, hinc⟩
      exact ⟨e, he, (listIncludes_substring e.data p.data).mp hinc⟩
    · rintro ⟨e, he, hinf⟩
      exact ⟨e, he, (listIncludes_substring e.data p.data).mpr hinf⟩
  · unfold requiresAuth strStartsWith
    rw [Bool.and_eq_true, List.isPrefixOf_iff_prefix, Bool.not_eq_true']

theorem claim_C5_witness : requiresAuth "/api/mode" = true :=
  (claim_C5 "/api/mode").2.mpr ⟨by decide, by decide⟩

/-- C5 as frozen is false: requiresAuth is not the negation of
isPublicEndpoint ("/other" is neither public nor auth-requiring), and
isPublicEndpoint accepts any path containing a public endpoint as a
substring ("x/api/health" is neither a declared public endpoint nor the
login endpoint, yet counts as public). -/
theorem claim_C5_counterexample :
    isPublicEndpoint "/other" = false ∧ requiresAuth "/other" = false ∧
    isPublicEndpoint "x/api/health" = true ∧ "x/api/health" ∉ PUBLIC_ENDPOINTS ∧
    "x/api/health" ≠ LOGIN_ENDPOINT := by
  refine ⟨rfl, rfl, rfl, ?_, ?_⟩ <;> decide

/-- C6 (amended): for a nonempty stored payload that does not parse into
a truthy object with a truthy token property, read returns absence with
the storage key deleted, and no error propagates (the reader is a total
function).  The frozen claim's deletion promise fails for the empty
string payload, which returns absence with the key left in place (see
the counterexample). -/
theorem claim_C6 (p : String) (w : Bool) (hp : p ≠ "")
    (hbad : jsonParse p = none ∨
      ∃ v, jsonParse p = some v ∧
        (truthy v && typeofObject v && truthy (jsGet v "token")) = false) :
    getStoredToken ⟨some p, w⟩ = (none, ⟨none, w⟩) := by
  unfold getStoredToken
  dsimp only
  rw [if_neg hp]
  rcases hbad with h | ⟨v, hv, hcond⟩
  · rw [h]
    rfl
  · rw [hv]
    dsimp only
    rw [if_neg (by rw [hcond]; exact Bool.false_ne_true)]
    rfl

theorem claim_C6_witness :
    getStoredToken ⟨some "notjson", true⟩ = (none, ⟨none, true⟩) :=
  claim_C6 "notjson" true (by decide) (Or.inl rfl)

/-- C6 as frozen is false: the empty-string payload is unparsable JSON,
yet read returns absence with the storage key still present - the
falsy-payload early return skips the self-heal deletion. -/
theorem claim_C6_counterexample :
    jsonParse "" = none ∧
    getStoredToken ⟨some "", true⟩ = (none, ⟨some "", true⟩) :=
  ⟨rfl, rfl⟩

/-- C7: the 2xx body parser recovers the spec's scenario (a body with a
raw newline inside a string value) by one control-character escaping
pass; in general one recovery pass is attempted for any nonempty
strictly-unparsable body, and when the reparse also fails the result is
the malformed-JSON failure logging a diagnostic excerpt of at most 200
characters. -/
theorem claim_C7 :
    (parseResponseBody ⟨200, some "application/json", none, "\x7b\"mode\": \"au\nto\"\x7d"⟩ =
      { result := .ok (.jobj [("mode", .jstr "au\nto")]), logs := [] }) ∧
    (∀ text, text ≠ "" → jsonParse text = none → jsonParse (cleanJsonString text) = none →
      parseBodyText text = { result := .error .malformedJson, logs := [strTake text 200] } ∧
        (strTake text 200).length ≤ 200) ∧
    (∀ text v, text ≠ "" → jsonParse text = none → jsonParse (cleanJsonString text) = some v →
      parseBodyText text = { result := .ok v, logs := [] }) := by
  refine ⟨rfl, ?_, ?_⟩
  · intro text hne h1 h2
    constructor
    · unfold parseBodyText
      rw [if_neg hne, h1]
      dsimp only
      by_cases hc : cleanJsonString text ≠ text
      · rw [if_pos hc, h2]
      · rw [if_neg hc]
    · show (String.mk (text.data.take 200)).length ≤ 200
      have h3 : (String.mk (text.data.take 200)).length = (text.data.take 200).length := rfl
      rw [h3, List.length_take]
      exact Nat.min_le_left _ _
  · intro text v hne h1 h2
    have hc : cleanJsonString text ≠ text := by
      intro heq
      rw [heq, h1] at h2
      exact absurd h2 (by simp)
    unfold parseBodyText
    rw [if_neg hne, h1]
    dsimp only
    rw [if_pos hc, h2]

theorem claim_C7_witness :
    parseBodyText "\x7bbad" =
      { result := .error .malformedJson, logs := [strTake "\x7bbad" 200] } ∧
    parseBodyText "\x7b\"mode\": \"au\nto\"\x7d" =
      { result := .ok (.jobj [("mode", .jstr "au\nto")]), logs := [] } :=
  ⟨(claim_C7.2.1 "\x7bbad" (by decide) rfl rfl).1,
    claim_C7.2.2 "\x7b\"mode\": \"au\nto\"\x7d" (.jobj [("mode", .jstr "au\nto")])
      (by decide) rfl rfl⟩

/-- C8: for a stored record whose timestamp parses to a truthy number
ts, isTokenExpired reports true exactly when now - ts exceeds maxAge,
and reports false on the exact boundary now - ts = maxAge. -/
theorem claim_C8 (now maxAge ts : Rat) (st : Storage) (v : JValue)
    (hv : (getTokenData st).1 = some v)
    (hts : jsGet v "timestamp" = .jnum ts)
    (hts0 : ts ≠ 0) :
    ((isTokenExpired now maxAge st).1 = true ↔ now - ts > maxAge) ∧
    (now - ts = maxAge → (isTokenExpired now maxAge st).1 = false) := by
  have htr : truthy (JValue.jnum ts) = true := by simp [truthy, hts0]
  unfold isTokenExpired getTokenAge
  dsimp only
  rw [hv]
  dsimp only
  rw [hts, if_pos htr]
  dsimp only [ageSub]
  refine ⟨by simp, fun heq => by simp [heq]⟩

theorem claim_C8_witness :
    (isTokenExpired 10 5 ⟨some (stringifyRecord "a" 5), true⟩).1 = false ∧
    (isTokenExpired 11 5 ⟨some (stringifyRecord "a" 5), true⟩).1 = true := by
  have hv := getTokenData_stringify "a" 5 true (by decide)
  refine ⟨(claim_C8 10 5 ((5 : Nat) : Rat) _ _ hv rfl (by norm_num)).2 (by norm_num),
    (claim_C8 11 5 ((5 : Nat) : Rat) _ _ hv rfl (by norm_num)).1.mpr (by norm_num)⟩

/-- C9: storeToken reports failure and leaves the persisted store
untouched for null, undefined, the empty string, any non-string value,
and for a failing underlying write; it writes exactly the serialized
credential record for a nonempty string token on a store that accepts
writes. -/
theorem claim_C9 :
    (∀ v now st, (v = .jnull ∨ v = .jundefined ∨ v = .jstr "" ∨ ∀ s, v ≠ .jstr s) →
      storeToken v now st = (false, st)) ∧
    (∀ t now st, t ≠ "" → st.writeOk = true →
      (storeToken (.jstr t) now st).1 = true ∧
      (storeToken (.jstr t) now st).2.data = some (stringifyRecord t now)) ∧
    (∀ t now st, st.writeOk = false → storeToken (.jstr t) now st = (false, st)) := by
  refine ⟨?_, ?_, ?_⟩
  · intro v now st h
    unfold storeToken
    rcases h with h | h | h | h
    · subst h; rfl
    · subst h; rfl
    · subst h; simp
    · cases v with
      | jstr s => exact absurd rfl (h s)
      | jundefined => rfl
      | jnull => rfl
      | jbool b => rfl
      | jnum q => rfl
      | jarr es => rfl
      | jobj fs => rfl
  · intro t now st ht hw
    simp only [storeToken]
    rw [if_neg ht, if_pos hw]
    exact ⟨rfl, rfl⟩
  · intro t now st hw
    simp only [storeToken]
    by_cases ht : t = ""
    · rw [if_pos ht]
    · rw [if_neg ht, if_neg (by rw [hw]; exact Bool.false_ne_true)]

theorem claim_C9_witness :
    storeToken .jnull 5 ⟨none, true⟩ = (false, ⟨none, true⟩) ∧
    (storeToken (.jstr "abc") 5 ⟨none, true⟩).1 = true ∧
    (storeToken (.jstr "abc") 5 ⟨none, true⟩).2.data = some (stringifyRecord "abc" 5) ∧
    storeToken (.jstr "abc") 5 ⟨none, false⟩ = (false, ⟨none, false⟩) :=
  ⟨claim_C9.1 .jnull 5 ⟨none, true⟩ (Or.inl rfl),
    (claim_C9.2.1 "abc" 5 ⟨none, true⟩ (by decide) rfl).1,
    (claim_C9.2.1 "abc" 5 ⟨none, true⟩ (by decide) rfl).2,
    claim_C9.2.2 "abc" 5 ⟨none, false⟩ rfl⟩

/-- C10: when no usable credential record is stored, or the stored
record's parse has no timestamp property, isTokenExpired reports false
for every clock value and maxAge - an absent session is never expired. -/
theorem claim_C10 (now maxAge : Rat) (st : Storage)
    (h : ∀ v, (getTokenData st).1 = some v → jsGet v "timestamp" = .jundefined) :
    (isTokenExpired now maxAge st).1 = false := by
  unfold isTokenExpired getTokenAge
  dsimp only
  cases hv : (getTokenData st).1 with
  | none => rfl
  | some v =>
    dsimp only
    rw [h v hv, if_neg (by decide : ¬(truthy JValue.jundefined = true))]

theorem claim_C10_witness :
    (isTokenExpired 7 3 ⟨none, true⟩).1 = false ∧
    (isTokenExpired 7 3 ⟨some "\x7b\"token\":\"abc\"\x7d", true⟩).1 = false :=
  ⟨claim_C10 7 3 ⟨none, true⟩ (fun _ hv => Option.noConfusion hv),
    claim_C10 7 3 ⟨some "\x7b\"token\":\"abc\"\x7d", true⟩
      (fun v hv => by rw [← Option.some.inj hv]; rfl)⟩
